import Mathlib

/-!
Formal model of the FitTrack Workout Session Engine and Timer Scheduler
(src/scripts/services/workout-service.js, src/scripts/services/timer-service.js).

The persistence layer is IndexedDB (src/scripts/core/database.js), whose reads
and writes have structured-clone value semantics: every `getWorkout` returns an
independent copy of the stored record, and `updateWorkout` stores a copy of the
argument.  The engine operations are therefore modelled as pure transition
functions on the persisted `Workout` value: each operation receives the
currently persisted record (the fetch at the top of the JS method), and returns
the record that ends up persisted, plus - where it differs - the value the JS
method returns to its caller.  JS timestamps (milliseconds since the epoch) are
modelled as `Nat`, JS numbers holding weights or timer quantities as `Int`, and
JS strings used by the time formatter as `List Char`.
-/

namespace FitTrack

deriving instance DecidableEq for Except

/-! ### Workout session data model (spec section 3, workout-service.js) -/

inductive WStatus
  | active
  | paused
  | completed
deriving DecidableEq, Repr

structure CompletedSet where
  setNumber : Nat
  reps : Nat
  weight : Int
  completedAt : Nat
deriving DecidableEq, Repr

structure ExerciseProgress where
  exerciseId : Nat
  name : String
  targetSets : Nat
  targetReps : Nat
  targetWeight : Int
  restTime : Nat
  completedSets : Nat
  sets : List CompletedSet
deriving DecidableEq, Repr

structure Workout where
  id : Nat
  routineId : Nat
  routineName : String
  status : WStatus
  currentExerciseIndex : Nat
  currentSet : Nat
  exercises : List ExerciseProgress
  startTime : Nat
  endTime : Option Nat
  duration : Int
  pausedAt : Option Nat
deriving DecidableEq, Repr

/-- A stored routine exercise record (the shape produced by
`WorkoutService.createExercise` and read back by `getRoutine`). -/
structure Exercise where
  id : Nat
  name : String
  sets : Nat
  reps : Nat
  weight : Int
  restTime : Nat
deriving DecidableEq, Repr

structure Routine where
  id : Nat
  name : String
  exercises : List Exercise
deriving DecidableEq, Repr

/-! ### Engine operations (workout-service.js lines 345-668) -/

/-- JS `x || d` for a possibly-absent number `x`: both `undefined` and `0` are
falsy, so the default is taken for either. -/
def jsOrNat : Option Nat → Nat → Nat
  | some v, d => if v = 0 then d else v
  | none, d => d

/-- JS `x || d` for a possibly-absent numeric weight. -/
def jsOrInt : Option Int → Int → Int
  | some v, d => if v = 0 then d else v
  | none, d => d

/-- The `setData` argument of `completeSet`; `none` models an absent field. -/
structure SetData where
  reps : Option Nat
  weight : Option Int

/-- Error outcomes of engine operations.  The JS code throws plain `Error`s;
the spec's taxonomy names them `NotFoundError` / `InvalidStateError`.
`typeError` is the implicit TypeError raised when the code dereferences
`workout.exercises[workout.currentExerciseIndex]` while the index is out of
range. -/
inductive EngineError
  | notFound
  | invalidState
  | typeError
deriving DecidableEq, Repr

/-- `startWorkout` (lines 345-386): snapshot the routine into a fresh active
session.  `database.createWorkout` re-stamps `status: 'active'` and the id. -/
def startWorkout (r : Routine) (now : Nat) (wid : Nat) : Workout :=
  { id := wid
    routineId := r.id
    routineName := r.name
    status := .active
    currentExerciseIndex := 0
    currentSet := 1
    exercises := r.exercises.map fun e =>
      { exerciseId := e.id
        name := e.name
        targetSets := e.sets
        targetReps := e.reps
        targetWeight := e.weight
        restTime := e.restTime
        completedSets := 0
        sets := [] }
    startTime := now
    endTime := none
    duration := 0
    pausedAt := none }

/-- The mutation `finishWorkout` (lines 452-479) applies to the workout record
it fetched: stamp `endTime`, `duration = Math.floor((endTime-startTime)/1000)`
and `status = 'completed'`.  There is no guard on the current status. -/
def finishStamp (w : Workout) (now : Nat) : Workout :=
  { w with
    status := .completed
    endTime := some now
    duration := ((now : Int) - (w.startTime : Int)).fdiv 1000 }

/-- `finishWorkout` on an existing session: the only check in the source is
`!workout` (the not-found case, outside this model of an existing record). -/
def finishWorkout (w : Workout) (now : Nat) : Except EngineError Workout :=
  .ok (finishStamp w now)

/-- `completeSet` (lines 394-445).  The result is
`(persisted record, value returned to the caller)`.  On the
all-exercises-done path the source calls `this.finishWorkout(workoutId)` and
returns early: `finishWorkout` re-fetches the session from the database -
which still holds the value from before this call, namely `w` - stamps it
completed and persists that, while the locally mutated copy (with the final
set appended and the advanced index) is returned to the caller unpersisted. -/
def completeSet (w : Workout) (sd : SetData) (now : Nat) :
    Except EngineError (Workout × Workout) :=
  if w.status ≠ WStatus.active then .error .invalidState
  else
    match w.exercises[w.currentExerciseIndex]? with
    | none => .error .typeError
    | some ex =>
      let cs : CompletedSet :=
        { setNumber := ex.completedSets + 1
          reps := jsOrNat sd.reps ex.targetReps
          weight := jsOrInt sd.weight ex.targetWeight
          completedAt := now }
      let ex' := { ex with sets := ex.sets ++ [cs], completedSets := ex.completedSets + 1 }
      let exs := w.exercises.set w.currentExerciseIndex ex'
      if ex'.targetSets ≤ ex'.completedSets then
        let w' := { w with
          exercises := exs
          currentExerciseIndex := w.currentExerciseIndex + 1
          currentSet := 1 }
        if w'.exercises.length ≤ w'.currentExerciseIndex then
          .ok (finishStamp w now, w')
        else
          .ok (w', w')
      else
        let w' := { w with exercises := exs, currentSet := w.currentSet + 1 }
        .ok (w', w')

/-- `pauseWorkout` (lines 486-508). -/
def pauseWorkout (w : Workout) (now : Nat) : Except EngineError Workout :=
  if w.status ≠ WStatus.active then .error .invalidState
  else .ok { w with status := .paused, pausedAt := some now }

/-- `resumeWorkout` (lines 515-537). -/
def resumeWorkout (w : Workout) : Except EngineError Workout :=
  if w.status ≠ WStatus.paused then .error .invalidState
  else .ok { w with status := .active, pausedAt := none }

/-- `updateExerciseWeight` (lines 643-668): the only guard is that the session
and the indexed exercise exist; the session status is not inspected. -/
def updateExerciseWeight (w : Workout) (idx : Nat) (newWeight : Int) :
    Except EngineError Workout :=
  match w.exercises[idx]? with
  | none => .error .notFound
  | some ex =>
      .ok { w with exercises := w.exercises.set idx { ex with targetWeight := newWeight } }

/-- `getCurrentExercise` (lines 591-597). -/
def getCurrentExercise (w : Workout) : Option ExerciseProgress :=
  if w.exercises.length ≤ w.currentExerciseIndex then none
  else w.exercises[w.currentExerciseIndex]?

/-! ### Reachability: sequences of engine operations on the persisted record -/

inductive EngineOp where
  | complete (sd : SetData) (now : Nat)
  | finish (now : Nat)
  | pause (now : Nat)
  | resume
  | updateWeight (idx : Nat) (newWeight : Int)

/-- The persisted record after one engine operation.  A thrown error leaves the
persisted record unchanged: every guard fires before the persistence call. -/
def engineStep (w : Workout) : EngineOp → Workout
  | .complete sd now =>
      match completeSet w sd now with
      | .ok p => p.1
      | .error _ => w
  | .finish now =>
      match finishWorkout w now with
      | .ok w' => w'
      | .error _ => w
  | .pause now =>
      match pauseWorkout w now with
      | .ok w' => w'
      | .error _ => w
  | .resume =>
      match resumeWorkout w with
      | .ok w' => w'
      | .error _ => w
  | .updateWeight i x =>
      match updateExerciseWeight w i x with
      | .ok w' => w'
      | .error _ => w

/-- Persisted sessions reachable from an initial session. -/
inductive ReachableFrom (w0 : Workout) : Workout → Prop
  | refl : ReachableFrom w0 w0
  | step (w : Workout) (op : EngineOp) :
      ReachableFrom w0 w → ReachableFrom w0 (engineStep w op)

/-- Per-exercise record invariant. -/
def ExInv (ex : ExerciseProgress) : Prop :=
  ex.sets.length = ex.completedSets ∧
  ex.completedSets ≤ ex.targetSets ∧
  1 ≤ ex.targetSets

/-- Inductive session invariant: the index stays in range, every exercise
satisfies `ExInv`, and every exercise at or beyond the current index still has
sets left to perform. -/
def SessionInv (w : Workout) : Prop :=
  w.currentExerciseIndex ≤ w.exercises.length ∧
  (∀ ex ∈ w.exercises, ExInv ex) ∧
  (∀ i, w.currentExerciseIndex ≤ i → ∀ ex, w.exercises[i]? = some ex →
    ex.completedSets < ex.targetSets)

/-! ### Timer scheduler data model (timer-service.js) -/

inductive TimerKind
  | countdown
  | stopwatch
deriving DecidableEq, Repr

inductive TimerStatus
  | running
  | timerPaused
deriving DecidableEq, Repr

/-- The timer record kept in `this.activeTimers` on the service side. -/
structure TimerRecord where
  id : Nat
  kind : TimerKind
  duration : Int
  remaining : Int
  elapsed : Int
  status : TimerStatus
  startTime : Nat
  pausedTime : Option Nat
deriving DecidableEq, Repr

/-- Events emitted by the service's event bus. -/
inductive ServiceEvent where
  | tick (timerId : Nat) (remaining elapsed : Int)
  | complete (timerId : Nat)
  | restHalfway (timerId : Nat) (remaining : Int)
  | restCountdown (timerId : Nat) (remaining : Int)
  | restComplete (timerId : Nat)
deriving DecidableEq, Repr

/-- Outbound messages posted to the delegated worker context. -/
inductive WorkerCmd where
  | start (timerId : Nat) (kind : TimerKind) (duration : Int)
  | pauseTimer (timerId : Nat)
  | resumeTimer (timerId : Nat)
  | stopTimer (timerId : Nat)
deriving DecidableEq, Repr

/-- The JS `options` object spread into the freshly built timer record
(`{ ..fresh fields.., ...options }` - the spread comes last, so any field
present in the options overrides the fresh value).  `autoNotify` is consumed
by `startRestTimer` only. -/
structure TimerOpts where
  id : Option Nat
  kind : Option TimerKind
  duration : Option Int
  remaining : Option Int
  elapsed : Option Int
  status : Option TimerStatus
  startTime : Option Nat
  autoNotify : Bool
deriving DecidableEq, Repr

/-- Empty options object `{}`. -/
def noOpts : TimerOpts :=
  { id := none, kind := none, duration := none, remaining := none, elapsed := none
    status := none, startTime := none, autoNotify := true }

/-- Spread the options over a freshly built record: fields present in the
options win, because the source writes `{ ...fresh, ...options }`. -/
def applyOpts (t : TimerRecord) (o : TimerOpts) : TimerRecord :=
  { id := o.id.getD t.id
    kind := o.kind.getD t.kind
    duration := o.duration.getD t.duration
    remaining := o.remaining.getD t.remaining
    elapsed := o.elapsed.getD t.elapsed
    status := o.status.getD t.status
    startTime := o.startTime.getD t.startTime
    pausedTime := t.pausedTime }

/-- Service state: the `activeTimers` map (association list in insertion
order), the timer-id counter, the log of messages posted to the delegated
worker, and the events emitted synchronously by the service itself. -/
structure TimerServiceState where
  activeTimers : List (Nat × TimerRecord)
  nextTimerId : Nat
  workerMsgs : List WorkerCmd
  emitted : List ServiceEvent
deriving DecidableEq, Repr

def initialServiceState : TimerServiceState :=
  { activeTimers := [], nextTimerId := 1, workerMsgs := [], emitted := [] }

def getTimer (st : TimerServiceState) (tid : Nat) : Option TimerRecord :=
  st.activeTimers.lookup tid

/-- `startCountdown` (timer-service.js lines 224-252).  The source performs no
validation of the duration whatsoever: it builds a running record with
`remaining = duration`, spreads the options over it, registers it and posts a
`start` message to the ticking strategy. -/
def startCountdown (st : TimerServiceState) (duration : Int) (opts : TimerOpts)
    (now : Nat) : TimerServiceState × Nat :=
  let tid := st.nextTimerId
  let timer := applyOpts
    { id := tid, kind := .countdown, duration := duration, remaining := duration
      elapsed := 0, status := .running, startTime := now, pausedTime := none } opts
  ({ st with
      activeTimers := st.activeTimers ++ [(tid, timer)]
      nextTimerId := st.nextTimerId + 1
      workerMsgs := st.workerMsgs ++ [.start tid .countdown duration] }, tid)

/-- `startStopwatch` (lines 259-287). -/
def startStopwatch (st : TimerServiceState) (opts : TimerOpts) (now : Nat) :
    TimerServiceState × Nat :=
  let tid := st.nextTimerId
  let timer := applyOpts
    { id := tid, kind := .stopwatch, duration := 0, remaining := 0
      elapsed := 0, status := .running, startTime := now, pausedTime := none } opts
  ({ st with
      activeTimers := st.activeTimers ++ [(tid, timer)]
      nextTimerId := st.nextTimerId + 1
      workerMsgs := st.workerMsgs ++ [.start tid .stopwatch 0] }, tid)

/-! ### The delegated (worker) ticking strategy (createWorkerScript, lines 59-135)

Single-timer projection of the worker: its entry in the `timers` map plus the
number of `setTimeout` callbacks currently scheduled for it.  Crucially, the
worker's `pause` handler only sets `timer.active = false`; it neither clears
the pending timeout nor is `active` ever read by `updateTimer`, whose only
guard is `if (!timer) return`. -/

structure WorkerTimer where
  kind : TimerKind
  duration : Int
  remaining : Int
  elapsed : Int
  active : Bool
deriving DecidableEq, Repr

/-- Messages the worker posts back to the service (for one timer id). -/
inductive WorkerOut where
  | tick (remaining elapsed : Int)
  | complete
deriving DecidableEq, Repr

structure WorkerState where
  timer : Option WorkerTimer
  pending : Nat
deriving DecidableEq, Repr

/-- One invocation of the worker's `updateTimer`: guard `if (!timer) return`,
decrement / increment, post the tick, complete-and-delete at zero, otherwise
re-arm `setTimeout(..., 1000)`.  The `active` flag is never consulted. -/
def workerUpdateTimer (s : WorkerState) : List WorkerOut × WorkerState :=
  match s.timer with
  | none => ([], s)
  | some t =>
    match t.kind with
    | .countdown =>
      let r := t.remaining - 1
      if r ≤ 0 then
        ([.tick r (t.duration - r), .complete], { s with timer := none })
      else
        ([.tick r (t.duration - r)],
         { timer := some { t with remaining := r }, pending := s.pending + 1 })
    | .stopwatch =>
      let e := t.elapsed + 1
      ([.tick 0 e], { timer := some { t with elapsed := e }, pending := s.pending + 1 })

/-- Inbound `self.onmessage` commands, projected to one timer id. -/
inductive WorkerMsg where
  | startMsg (kind : TimerKind) (duration : Int)
  | pauseMsg
  | resumeMsg
  | stopMsg
deriving DecidableEq, Repr

def workerHandleCmd (c : WorkerMsg) (s : WorkerState) : List WorkerOut × WorkerState :=
  match c with
  | .startMsg k d =>
      let t : WorkerTimer :=
        { kind := k
          duration := d
          remaining := if k = TimerKind.countdown then d else 0
          elapsed := 0
          active := true }
      workerUpdateTimer { s with timer := some t }
  | .pauseMsg =>
      ([], { s with timer := s.timer.map fun t => { t with active := false } })
  | .resumeMsg =>
      match s.timer with
      | none => ([], s)
      | some t => workerUpdateTimer { s with timer := some { t with active := true } }
  | .stopMsg => ([], { s with timer := none })

/-- Things that can happen to the worker: a command arrives, or one of the
scheduled 1-second callbacks fires. -/
inductive WorkerAct where
  | recv (c : WorkerMsg)
  | timeoutFires
deriving DecidableEq, Repr

def workerStep (s : WorkerState) : WorkerAct → List WorkerOut × WorkerState
  | .recv c => workerHandleCmd c s
  | .timeoutFires =>
      if s.pending = 0 then ([], s)
      else workerUpdateTimer { s with pending := s.pending - 1 }

def workerRun : WorkerState → List WorkerAct → List WorkerOut
  | _, [] => []
  | s, a :: rest =>
      let p := workerStep s a
      p.1 ++ workerRun p.2 rest

def workerRunState : WorkerState → List WorkerAct → WorkerState
  | s, [] => s
  | s, a :: rest => workerRunState (workerStep s a).2 rest

/-- `handleWorkerMessage` (lines 141-159): relay a worker message as a service
event.  The only guard is that the timer is still in `activeTimers`; the
service-side status is not inspected, so ticks are relayed even for a record
whose status is paused. -/
def handleWorkerMessage (tid : Nat) (rec : Option TimerRecord) (m : WorkerOut) :
    List ServiceEvent × Option TimerRecord :=
  match rec with
  | none => ([], none)
  | some t =>
    match m with
    | .tick r e => ([.tick tid r e], some { t with remaining := r, elapsed := e })
    | .complete => ([.complete tid], none)

/-! ### The cooperative main-thread fallback (startMainThreadTimer, lines 293-320)

Single-timer projection: the closure's timer object, whether the timer is
still in `activeTimers`, and the pending `setTimeout` callback count.  Here
`pause` both flips the status and clears the timeout, and `updateTimer`
checks `!activeTimers.has(id) || status !== 'running'` before doing anything. -/

structure MainTimer where
  kind : TimerKind
  duration : Int
  remaining : Int
  elapsed : Int
  status : TimerStatus
deriving DecidableEq, Repr

structure MainState where
  timer : MainTimer
  inMap : Bool
  pending : Nat
deriving DecidableEq, Repr

def mainUpdateTimer (s : MainState) : List WorkerOut × MainState :=
  if ¬ s.inMap ∨ s.timer.status ≠ TimerStatus.running then ([], s)
  else
    match s.timer.kind with
    | .countdown =>
      let r := s.timer.remaining - 1
      let e := s.timer.duration - r
      if r ≤ 0 then
        ([.tick r e, .complete],
         { s with timer := { s.timer with remaining := r, elapsed := e }, inMap := false })
      else
        ([.tick r e],
         { timer := { s.timer with remaining := r, elapsed := e }
           inMap := s.inMap, pending := s.pending + 1 })
    | .stopwatch =>
      let e := s.timer.elapsed + 1
      ([.tick 0 e],
       { timer := { s.timer with elapsed := e }, inMap := s.inMap, pending := s.pending + 1 })

/-- `startMainThreadTimer` arms the first 1-second callback: no immediate tick. -/
def mainStart (t : MainTimer) : MainState :=
  { timer := t, inMap := true, pending := 1 }

/-- The fallback branch of `pause` (lines 327-350): flip the status, record the
pause instant and `clearTimeout` the scheduled callback. -/
def mainPause (s : MainState) : MainState :=
  if s.inMap ∧ s.timer.status = TimerStatus.running then
    { s with timer := { s.timer with status := .timerPaused }, pending := 0 }
  else s

inductive MainAct where
  | timeoutFires
  | pauseCall
deriving DecidableEq, Repr

def mainStep (s : MainState) : MainAct → List WorkerOut × MainState
  | .timeoutFires =>
      if s.pending = 0 then ([], s)
      else mainUpdateTimer { s with pending := s.pending - 1 }
  | .pauseCall => ([], mainPause s)

def mainRun : MainState → List MainAct → List WorkerOut
  | _, [] => []
  | s, a :: rest =>
      let p := mainStep s a
      p.1 ++ mainRun p.2 rest

/-! ### Undisturbed countdown tick stream

Both strategies produce, for a countdown left to run to completion, the same
sequence of tick and complete events (the worker emits the first tick
immediately on `start`, the fallback after one second; the payloads are
identical).  `countdownEvents tid d n` is that stream as delivered through the
event bus, starting from remaining `n`. -/

def countdownEvents (tid : Nat) (d : Int) : Nat → List ServiceEvent
  | 0 => [.tick tid (-1) (d + 1), .complete tid]
  | n + 1 =>
      .tick tid n (d - n) :: (if n = 0 then [.complete tid] else countdownEvents tid d n)

/-! ### Rest timers (startRestTimer / setupRestNotifications, lines 501-569) -/

/-- The per-event behaviour of the listeners installed by
`setupRestNotifications`: `halfTime = Math.floor(duration / 2)`, the final
countdown window is the last 10 seconds, and on `complete` a `restComplete`
is emitted.  The listeners only emit derived events; they do not touch the
timer's own accounting. -/
def restNotifyEvents (tid : Nat) (halfTime : Int) : ServiceEvent → List ServiceEvent
  | .tick id r _ =>
      if id = tid then
        (if r = halfTime ∧ 10 < halfTime then [.restHalfway tid r] else []) ++
        (if r ≤ 10 ∧ 0 < r then [.restCountdown tid r] else [])
      else []
  | .complete id => if id = tid then [.restComplete tid] else []
  | _ => []

/-- `startRestTimer duration opts`: the base countdown stream together with the
derived notification stream (empty when `autoNotify` is disabled).  The base
stream is the unmodified countdown stream: the notification layer is pure. -/
def startRestTimerEvents (tid : Nat) (duration : Nat) (autoNotify : Bool) :
    List ServiceEvent × List ServiceEvent :=
  let base := countdownEvents tid (duration : Int) duration
  (base,
   if autoNotify then base.flatMap (restNotifyEvents tid ((duration : Int) / 2)) else [])

/-! ### Suspend / restore (saveState / restoreState, lines 654-707) -/

/-- One saved timer: the spread of the record plus the wall-clock
`realElapsed = Math.floor((Date.now() - timer.startTime) / 1000)`. -/
structure SavedTimer where
  timer : TimerRecord
  realElapsed : Nat
deriving DecidableEq, Repr

structure StateSnapshot where
  timers : List (Nat × SavedTimer)
  timestamp : Nat
deriving DecidableEq, Repr

/-- `saveState` (wall clock assumed monotone, so the subtractions are the
truncation-free `Nat` differences). -/
def saveState (st : TimerServiceState) (now : Nat) : StateSnapshot :=
  { timers := st.activeTimers.map fun p =>
      (p.1, { timer := p.2, realElapsed := (now - p.2.startTime) / 1000 })
    timestamp := now }

/-- The options object `{ ...timerData, id: timerId }` passed by `restoreState`
to `startCountdown`: every saved field is present, so every fresh field of the
recreated record is overridden. -/
def optsOfSaved (tid : Nat) (td : SavedTimer) : TimerOpts :=
  { id := some tid
    kind := some td.timer.kind
    duration := some td.timer.duration
    remaining := some td.timer.remaining
    elapsed := some td.timer.elapsed
    status := some td.timer.status
    startTime := some td.timer.startTime
    autoNotify := true }

/-- Restore a single saved timer (the body of the `forEach`). -/
def restoreOne (now : Nat) (timeLapsed : Nat) (st : TimerServiceState)
    (tid : Nat) (td : SavedTimer) : TimerServiceState :=
  if td.timer.status = TimerStatus.running then
    let adjustedElapsed : Int := (td.realElapsed : Int) + (timeLapsed : Int)
    match td.timer.kind with
    | .countdown =>
      let remaining := td.timer.duration - adjustedElapsed
      if 0 < remaining then
        (startCountdown st remaining (optsOfSaved tid td) now).1
      else
        { st with emitted := st.emitted ++ [.complete tid] }
    | .stopwatch =>
      let p := startStopwatch st (optsOfSaved tid td) now
      { p.1 with activeTimers := p.1.activeTimers.map fun q =>
          if q.1 = p.2 then (q.1, { q.2 with elapsed := adjustedElapsed }) else q }
  else st

/-- `restoreState`: `timeLapsed = Math.floor((Date.now() - timestamp) / 1000)`,
then each previously running timer is restored; paused timers are skipped. -/
def restoreState (st : TimerServiceState) (snap : StateSnapshot) (now : Nat) :
    TimerServiceState :=
  let timeLapsed := (now - snap.timestamp) / 1000
  snap.timers.foldl (fun s p => restoreOne now timeLapsed s p.1 p.2) st

/-! ### Validation helpers (workout-service.js lines 727-769) -/

/-- Input of `validateExerciseData`; `none` models an absent (undefined)
field, numbers are modelled as integers (the `isNaN` disjunct of each check is
then vacuous). -/
structure ExerciseData where
  name : String
  sets : Option Int
  reps : Option Int
  weight : Option Int
  restTime : Option Int
deriving DecidableEq, Repr

structure RoutineData where
  name : String
  exercises : List ExerciseData
deriving DecidableEq, Repr

inductive VError
  | nameRequired
  | setsInvalid
  | repsInvalid
  | weightInvalid
  | restTimeInvalid
  | routineNameRequired
deriving DecidableEq, Repr

/-- JS falsiness of a string: only the empty string is falsy.  The source
tests `!name || name.trim().length === 0`; the trimmed string is empty
exactly when every character is whitespace. -/
def nameEmpty (s : String) : Bool :=
  s == "" || s.data.all Char.isWhitespace

/-- The shape of every numeric check in `validateExerciseData`:
`if (x && (isNaN(x) || x < lo)) throw`.  The leading truthiness test skips
the check entirely when the field is absent - or zero, since `0` is falsy. -/
def numFieldBad (x : Option Int) (lo : Int) : Bool :=
  match x with
  | none => false
  | some v => v != 0 && decide (v < lo)

/-- `validateExerciseData` (lines 749-769): a pure function, it performs no
persistence. -/
def validateExerciseData (d : ExerciseData) : Except VError Unit :=
  if nameEmpty d.name then .error .nameRequired
  else if numFieldBad d.sets 1 then .error .setsInvalid
  else if numFieldBad d.reps 1 then .error .repsInvalid
  else if numFieldBad d.weight 0 then .error .weightInvalid
  else if numFieldBad d.restTime 0 then .error .restTimeInvalid
  else .ok ()

def validateExercises : List ExerciseData → Except VError Unit
  | [] => .ok ()
  | d :: ds =>
      match validateExerciseData d with
      | .ok _ => validateExercises ds
      | .error e => .error e

/-- `validateRoutineData` (lines 727-741); the `Array.isArray` check is
vacuous for a list. -/
def validateRoutineData (r : RoutineData) : Except VError Unit :=
  if nameEmpty r.name then .error .routineNameRequired
  else validateExercises r.exercises

/-! ### Time formatting (formatTime / parseTime, timer-service.js lines 464-493)

JS strings are modelled as character lists. -/

/-- `String.prototype.padStart(2, '0')`. -/
def padStartTwo (l : List Char) : List Char :=
  if l.length < 2 then List.replicate (2 - l.length) '0' ++ l else l

def natDigitsCore : Nat → Nat → List Char → List Char
  | 0, _, acc => acc
  | fuel + 1, n, acc =>
      if n < 10 then Nat.digitChar n :: acc
      else natDigitsCore fuel (n / 10) (Nat.digitChar (n % 10) :: acc)

/-- Decimal representation of a natural number
(`Number.prototype.toString()`); the first argument of `natDigitsCore` is
fuel, and `n` digits never need more than `n + 1` steps. -/
def natDigits (n : Nat) : List Char := natDigitsCore (n + 1) n []

/-- `formatTime` (lines 464-474): `hours = floor(seconds/3600)`,
`minutes = floor((seconds % 3600)/60)`, `secs = seconds % 60`, each
zero-padded to two digits; the hours component appears when `includeHours`
is set or `hours > 0`. -/
def formatTime (seconds : Nat) (includeHours : Bool) : List Char :=
  if includeHours = true ∨ 0 < seconds / 3600 then
    padStartTwo (natDigits (seconds / 3600)) ++
      ':' :: (padStartTwo (natDigits ((seconds % 3600) / 60)) ++
        ':' :: padStartTwo (natDigits (seconds % 60)))
  else
    padStartTwo (natDigits ((seconds % 3600) / 60)) ++
      ':' :: padStartTwo (natDigits (seconds % 60))

/-- `String.prototype.split(':')`. -/
def splitOnChar (sep : Char) : List Char → List (List Char)
  | [] => [[]]
  | c :: cs =>
      let r := splitOnChar sep cs
      if c = sep then [] :: r
      else
        match r with
        | [] => [[c]]
        | h :: t => (c :: h) :: t

def digitVal (c : Char) : Nat := c.toNat - 48

def parseDigitsVal (l : List Char) : Nat :=
  l.foldl (fun a c => a * 10 + digitVal c) 0

/-- `parseInt(part, 10)` on the strings arising here: the maximal leading run
of decimal digits is parsed; `none` models `NaN` (no leading digits). -/
def jsParseInt (l : List Char) : Option Nat :=
  if (l.takeWhile Char.isDigit).isEmpty then none
  else some (parseDigitsVal (l.takeWhile Char.isDigit))

/-- `parseTime` (lines 481-493): two colon-separated components are read as
`MM:SS`, three as `HH:MM:SS`, anything else yields `0`.  A `NaN` component
(`none`) makes the arithmetic result `NaN` (`none`). -/
def parseTime (l : List Char) : Option Nat :=
  match (splitOnChar ':' l).map jsParseInt with
  | [a, b] =>
      match a, b with
      | some m, some s => some (m * 60 + s)
      | _, _ => none
  | [a, b, c] =>
      match a, b, c with
      | some h, some m, some s => some (h * 3600 + m * 60 + s)
      | _, _, _ => none
  | _ => some 0

/-! ### Concrete scenarios referenced by the theorems below -/

/-- A routine with 2 exercises of 2 sets each (spec section 8, full-workout
scenario). -/
def c1routine : Routine :=
  { id := 10, name := "Push Day"
    exercises := [
      { id := 1, name := "Bench", sets := 2, reps := 8, weight := 40, restTime := 60 },
      { id := 2, name := "Press", sets := 2, reps := 8, weight := 25, restTime := 60 }] }

/-- One `completeSet` call with an empty `setData`, as
`(persisted, returned)`; errors would leave the persisted record unchanged. -/
def c1call (w : Workout) (t : Nat) : Workout × Workout :=
  match completeSet w { reps := none, weight := none } t with
  | .ok p => p
  | .error _ => (w, w)

def c1start : Workout := startWorkout c1routine 1000 77
def c1s1 : Workout := (c1call c1start 2000).1
def c1s2 : Workout := (c1call c1s1 3000).1
def c1s3 : Workout := (c1call c1s2 4000).1
/-- The fourth call: persisted and returned sessions. -/
def c1final : Workout × Workout := c1call c1s3 5000

def c2routine : Routine :=
  { id := 20, name := "Legs"
    exercises := [
      { id := 3, name := "Squat", sets := 1, reps := 5, weight := 100, restTime := 120 }] }

/-- A session explicitly finished at t = 3000 after starting at t = 1000:
`status = completed`, `duration = 2`. -/
def c2completed : Workout := finishStamp (startWorkout c2routine 1000 88) 3000

/-- Delegated-strategy scenario: start a 5-second countdown, let one scheduled
callback fire, pause, and let the already-scheduled callback fire. -/
def c3acts : List WorkerAct :=
  [.recv (.startMsg .countdown 5), .timeoutFires, .recv .pauseMsg, .timeoutFires]

def c3initial : WorkerState := { timer := none, pending := 0 }

/-- The corresponding service-side record after `pause(timerId)`: still in
`activeTimers`, status paused. -/
def c3pausedRec : TimerRecord :=
  { id := 1, kind := .countdown, duration := 5, remaining := 3, elapsed := 2
    status := .timerPaused, startTime := 50000, pausedTime := some 52000 }

/-- The same scenario under the cooperative fallback. -/
def c3mainInitial : MainState :=
  mainStart { kind := .countdown, duration := 5, remaining := 5, elapsed := 0
              status := .running }

def c3mainActs : List MainAct := [.timeoutFires, .timeoutFires, .pauseCall, .timeoutFires]

/-- A 30-second countdown saved while running with `remaining = 10` on its
record and 20 wall-clock seconds elapsed. -/
def c4saved : SavedTimer :=
  { timer := { id := 1, kind := .countdown, duration := 30, remaining := 10
               elapsed := 20, status := .running, startTime := 100000
               pausedTime := none }
    realElapsed := 20 }

def c4snap : StateSnapshot := { timers := [(1, c4saved)], timestamp := 120000 }

/-- Restore after a 5-second gap: `timeLapsed = 5`, computed
`remaining = 30 - (20 + 5) = 5 > 0`. -/
def c4restored : TimerServiceState := restoreState initialServiceState c4snap 125000

def c6routine : Routine :=
  { id := 1, name := "R"
    exercises := [{ id := 1, name := "E", sets := 2, reps := 8, weight := 20, restTime := 60 }] }

/-- Exercise data with explicit zeros for every numeric field. -/
def c7data : ExerciseData :=
  { name := "Squat", sets := some 0, reps := some 0, weight := some 0, restTime := some 0 }

def c10workout : Workout := startWorkout c2routine 1000 99

/-- A reachable session: one `completeSet` after starting `c6routine`. -/
def c6state : Workout :=
  engineStep (startWorkout c6routine 0 1) (.complete { reps := none, weight := none } 5)

/-! ## Theorems -/

/-- C1: evaluation of the full-workout scenario on the code.  Starting from a
routine with 2 exercises of 2 sets each and calling `completeSet` four times,
the fourth call takes the finish path, but `finishWorkout` re-fetches the
session from the database - which still holds the state persisted by the
third call - so the value it stamps `completed` lacks the fourth set and the
index advance, while the value returned to the caller keeps `status =
'active'`.  No session satisfies the claimed conjunction `status == completed
∧ duration ≥ 0 ∧ getCurrentExercise = none`: the persisted session is
`completed` with `duration = 4 ≥ 0` but `getCurrentExercise` is not `none`
(index 1 of 2, the fourth set lost), and the returned session has
`getCurrentExercise = none` but is still `active`. -/
theorem C1_full_workout_divergence :
    c1final.1.status = WStatus.completed ∧
    c1final.1.duration = 4 ∧
    (0 : Int) ≤ c1final.1.duration ∧
    getCurrentExercise c1final.1 ≠ none ∧
    c1final.1.currentExerciseIndex = 1 ∧
    c1final.1.exercises.map (fun e => e.completedSets) = [2, 1] ∧
    c1final.2.status = WStatus.active ∧
    getCurrentExercise c1final.2 = none ∧
    c1final.2.exercises.map (fun e => e.completedSets) = [2, 2] := by
  decide

/-- C2 counterexample: on the completed session `c2completed`, both
`updateExerciseWeight` (which mutates the persisted record) and a second
`finishWorkout` (which re-stamps `endTime` and `duration`) succeed instead of
failing with `InvalidStateError`. -/
theorem C2_counterexample :
    c2completed.status = WStatus.completed ∧
    updateExerciseWeight c2completed 0 99 ≠ .error .invalidState ∧
    updateExerciseWeight c2completed 0 99 ≠ .ok c2completed ∧
    finishWorkout c2completed 9000 = .ok (finishStamp c2completed 9000) ∧
    c2completed.duration = 2 ∧
    (finishStamp c2completed 9000).duration = 8 := by
  decide

/-- C2 (amended): `completeSet` does fail on a completed session and leaves it
unchanged, but `finishWorkout` and `updateExerciseWeight` have no
completed-status guard: a second `finishWorkout` re-stamps `endTime` and
`duration = floor((now - startTime)/1000)`, and `updateExerciseWeight`
mutates the `targetWeight` of a completed session. -/
theorem C2_completed_guards (w : Workout) (sd : SetData) (now : Nat)
    (h : w.status = WStatus.completed) :
    completeSet w sd now = .error .invalidState ∧
    finishWorkout w now = .ok (finishStamp w now) ∧
    (finishStamp w now).duration = ((now : Int) - (w.startTime : Int)).fdiv 1000 ∧
    (finishStamp w now).endTime = some now ∧
    ∀ i ex x, w.exercises[i]? = some ex →
      updateExerciseWeight w i x =
        .ok { w with exercises := w.exercises.set i { ex with targetWeight := x } } := by
  refine ⟨?_, rfl, rfl, rfl, ?_⟩
  · unfold completeSet
    rw [h]
    simp
  · intro i ex x hex
    unfold updateExerciseWeight
    rw [hex]

/-- Witness for C2: the amended theorem applied to the concrete completed
session `c2completed`. -/
theorem C2_witness :
    completeSet c2completed { reps := none, weight := none } 9000 = .error .invalidState ∧
    finishWorkout c2completed 9000 = .ok (finishStamp c2completed 9000) := by
  have h := C2_completed_guards c2completed { reps := none, weight := none } 9000 (by decide)
  exact ⟨h.1, h.2.1⟩

/-- C3: evaluation at the failing input.  Under the delegated strategy, after
`start(countdown, 5)` and one scheduled callback, a `pause` only sets
`active = false` in the worker; the already-scheduled callback still fires,
decrements, and posts `tick 2` (the worker's `updateTimer` never reads
`active` and `pause` does not clear the timeout).  `handleWorkerMessage`
relays that tick to listeners because its only guard is map membership, even
though the service-side record is paused.  The cooperative fallback, given
the same schedule, emits nothing after `pause`. -/
theorem C3_worker_pause_tick :
    workerRun c3initial c3acts = [.tick 4 1, .tick 3 2, .tick 2 3] ∧
    (workerRunState c3initial (c3acts.take 3)).timer =
      some { kind := .countdown, duration := 5, remaining := 3, elapsed := 0, active := false } ∧
    handleWorkerMessage 1 (some c3pausedRec) (.tick 2 3) =
      ([.tick 1 2 3], some { c3pausedRec with remaining := 2, elapsed := 3 }) ∧
    c3pausedRec.status = .timerPaused ∧
    mainRun c3mainInitial c3mainActs = [.tick 4 1, .tick 3 2] := by
  decide

/-- C4 counterexample: restoring `c4saved` (duration 30, saved record
`remaining = 10`, `realElapsed = 20`) after a 5-second gap computes
`remaining = 30 - (20 + 5) = 5`, but the recreated record still carries the
pre-suspension `remaining = 10`, because the source spreads the saved fields
after the fresh ones; only the message sent to the ticking strategy carries
the computed 5. -/
theorem C4_counterexample :
    (30 : Int) - ((20 : Int) + (((125000 - 120000) / 1000 : Nat) : Int)) = 5 ∧
    getTimer c4restored 1 = some c4saved.timer ∧
    c4saved.timer.remaining = 10 ∧
    ((10 : Int) = 5 → False) ∧
    c4restored.workerMsgs = [.start 1 .countdown 5] := by
  decide

/-- C4 (amended): `restoreState` computes
`remaining = duration - (realElapsed + timeLapsed)` for a previously running
countdown.  If `remaining > 0`, `startCountdown` is invoked with the computed
value as the new countdown duration (the start message to the ticking
strategy carries it), but the options spread `{...timerData, id}` overrides
the recreated record, which keeps the pre-suspension `duration`, `remaining`,
`elapsed` and `startTime`.  If `remaining ≤ 0`, a `complete` event is emitted
immediately and no timer is created, so remaining never goes negative.
(A running timer carries no `pausedTime`: `pause` sets it and `resume`
deletes it, hence the `hpt` hypothesis.) -/
theorem C4_restore_behaviour (st : TimerServiceState) (tid : Nat) (td : SavedTimer)
    (ts now : Nat) (hrun : td.timer.status = .running)
    (hkind : td.timer.kind = .countdown) (hpt : td.timer.pausedTime = none) :
    (0 < td.timer.duration - ((td.realElapsed : Int) + (((now - ts) / 1000 : Nat) : Int)) →
      restoreState st { timers := [(tid, td)], timestamp := ts } now =
        { st with
            activeTimers := st.activeTimers ++ [(st.nextTimerId, { td.timer with id := tid })]
            nextTimerId := st.nextTimerId + 1
            workerMsgs := st.workerMsgs ++
              [.start st.nextTimerId .countdown
                (td.timer.duration - ((td.realElapsed : Int) + (((now - ts) / 1000 : Nat) : Int)))] }) ∧
    (td.timer.duration - ((td.realElapsed : Int) + (((now - ts) / 1000 : Nat) : Int)) ≤ 0 →
      restoreState st { timers := [(tid, td)], timestamp := ts } now =
        { st with emitted := st.emitted ++ [.complete tid] }) := by
  constructor
  · intro hpos
    simp only [restoreState, List.foldl, restoreOne, hrun, hkind, if_true]
    rw [if_pos hpos]
    simp only [startCountdown, applyOpts, optsOfSaved, Option.getD, hrun, hkind, hpt]
  · intro hneg
    simp only [restoreState, List.foldl, restoreOne, hrun, hkind, if_true]
    rw [if_neg (by omega)]

/-- Witness for C4: the spec scenario - a 30-second countdown saved at
`remaining = 10` (20 seconds really elapsed) and restored after a 15-second
gap emits `complete` immediately instead of resuming negative. -/
theorem C4_witness :
    restoreState initialServiceState c4snap 135000 =
      { initialServiceState with emitted := [ServiceEvent.complete 1] } := by
  have h := C4_restore_behaviour initialServiceState 1 c4saved 120000 135000 rfl rfl rfl
  exact h.2 (by decide)

/-- C5 counterexample: `startCountdown` with duration `0 ≤ 0` does not fail
with `ValidationError`; it creates and registers a running timer with
`remaining = 0`. -/
theorem C5_counterexample :
    (startCountdown initialServiceState 0 noOpts 500).1.activeTimers =
      [(1, { id := 1, kind := .countdown, duration := 0, remaining := 0, elapsed := 0
             status := .running, startTime := 500, pausedTime := none })] ∧
    getTimer (startCountdown initialServiceState 0 noOpts 500).1 1 ≠ none := by
  decide

/-- C5 (amended): `startCountdown` performs no validation of the duration at
all: for every duration `d` - positive, zero or negative - it registers a
running timer with `remaining = d` and returns its fresh timer id. -/
theorem C5_no_validation (st : TimerServiceState) (d : Int) (now : Nat) :
    (startCountdown st d noOpts now).2 = st.nextTimerId ∧
    (startCountdown st d noOpts now).1.activeTimers =
      st.activeTimers ++ [(st.nextTimerId,
        { id := st.nextTimerId, kind := .countdown, duration := d, remaining := d
          elapsed := 0, status := .running, startTime := now, pausedTime := none })] ∧
    (startCountdown st d noOpts now).1.workerMsgs =
      st.workerMsgs ++ [.start st.nextTimerId .countdown d] := by
  exact ⟨rfl, rfl, rfl⟩

/-- C7 counterexample: exercise data with `sets = 0` and `reps = 0` passes
`validateExerciseData`, because `0` is falsy and the check
`if (sets && (isNaN(sets) || sets < 1))` is skipped entirely. -/
theorem C7_counterexample :
    validateExerciseData c7data = .ok () ∧
    c7data.sets = some 0 ∧
    c7data.reps = some 0 := by
  decide

/-- C7 (amended): the validators are pure functions.  `validateExerciseData`
rejects empty or all-whitespace names, and rejects a supplied numeric field
below its bound only when the value is nonzero: `numFieldBad x lo` holds
exactly for a supplied nonzero value below `lo`, so negative sets/reps/weight
/rest time are rejected but `sets = 0` and `reps = 0` slip through the falsy
guard.  `validateRoutineData` rejects empty routine names. -/
theorem C7_validation_behaviour :
    (∀ d : ExerciseData, validateExerciseData d = .ok () ↔
      (nameEmpty d.name = false ∧ numFieldBad d.sets 1 = false ∧
       numFieldBad d.reps 1 = false ∧ numFieldBad d.weight 0 = false ∧
       numFieldBad d.restTime 0 = false)) ∧
    (∀ (x : Option Int) (lo : Int),
      numFieldBad x lo = true ↔ ∃ v, x = some v ∧ v ≠ 0 ∧ v < lo) ∧
    (∀ r : RoutineData, nameEmpty r.name = true →
      validateRoutineData r = .error .routineNameRequired) := by
  refine ⟨?_, ?_, ?_⟩
  · intro d
    unfold validateExerciseData
    split_ifs with h1 h2 h3 h4 h5 <;> simp_all
  · intro x lo
    cases x with
    | none => simp [numFieldBad]
    | some v => simp [numFieldBad, decide_eq_true_iff]
  · intro r h
    unfold validateRoutineData
    simp [h]

/-- Witness for C7: the amended characterization applied to concrete inputs -
`c7data` (zeros everywhere) passes, and an unnamed routine is rejected. -/
theorem C7_witness :
    validateExerciseData c7data = .ok () ∧
    validateRoutineData { name := "", exercises := [] } = .error .routineNameRequired :=
  ⟨(C7_validation_behaviour.1 c7data).mpr (by decide),
   C7_validation_behaviour.2.2 { name := "", exercises := [] } (by decide)⟩

/-- C10: the fallback `setData.reps || targetReps` (and likewise for weight)
triggers on any falsy value: completing a set with an explicitly supplied
`reps = 0` and `weight = 0` records the current exercise's `targetReps` and
`targetWeight` in the appended `CompletedSet`, not the supplied zeros. -/
theorem C10_zero_falls_back (w : Workout) (ex : ExerciseProgress) (now : Nat)
    (ha : w.status = WStatus.active)
    (he : w.exercises[w.currentExerciseIndex]? = some ex) :
    ∃ res : Workout × Workout,
      completeSet w { reps := some 0, weight := some 0 } now = .ok res ∧
      res.2.exercises[w.currentExerciseIndex]? = some
        { ex with
          sets := ex.sets ++ [{ setNumber := ex.completedSets + 1
                                reps := ex.targetReps
                                weight := ex.targetWeight
                                completedAt := now }]
          completedSets := ex.completedSets + 1 } := by
  have hidx : w.currentExerciseIndex < w.exercises.length :=
    (List.getElem?_eq_some_iff.mp he).1
  unfold completeSet
  rw [ha, he]
  simp only [ne_eq, not_true_eq_false, if_false, jsOrNat, jsOrInt, if_pos rfl]
  split_ifs with h1 h2 <;>
    exact ⟨_, rfl, by simp [List.getElem?_set_self hidx]⟩

/-- Witness for C10: completing a set on the freshly started `c10workout`
with explicit zeros records the targets (`reps = 5`, `weight = 100`). -/
theorem C10_witness :
    ∃ res : Workout × Workout,
      completeSet c10workout { reps := some 0, weight := some 0 } 5000 = .ok res ∧
      res.2.exercises[c10workout.currentExerciseIndex]? = some
        { exerciseId := 3, name := "Squat", targetSets := 1, targetReps := 5
          targetWeight := 100, restTime := 120, completedSets := 1
          sets := [{ setNumber := 1, reps := 5, weight := 100, completedAt := 5000 }] } :=
  C10_zero_falls_back c10workout
    { exerciseId := 3, name := "Squat", targetSets := 1, targetReps := 5
      targetWeight := 100, restTime := 120, completedSets := 0, sets := [] }
    5000 rfl rfl

/-- The invariant holds of a freshly started session, provided the routine's
exercises all have at least one target set (the data model declares
`targetSets : int ≥ 1`). -/
theorem sessionInv_start (r : Routine) (hr : ∀ e ∈ r.exercises, 1 ≤ e.sets)
    (t0 wid : Nat) : SessionInv (startWorkout r t0 wid) := by
  refine ⟨Nat.zero_le _, ?_, ?_⟩
  · intro ex hex
    simp only [startWorkout, List.mem_map] at hex
    obtain ⟨e, he, rfl⟩ := hex
    exact ⟨rfl, Nat.zero_le _, hr e he⟩
  · intro i _ ex hex
    simp only [startWorkout, List.getElem?_map] at hex
    rcases h' : r.exercises[i]? with _ | e
    · rw [h'] at hex; simp at hex
    · rw [h'] at hex
      injection hex with hex
      subst hex
      have h1 := hr e (List.getElem?_mem h')
      simpa using h1

/-- Every engine operation preserves the session invariant. -/
theorem sessionInv_step (w : Workout) (op : EngineOp) (h : SessionInv w) :
    SessionInv (engineStep w op) := by
  obtain ⟨hlen, hmem, hcur⟩ := h
  cases op with
  | finish now => exact ⟨hlen, hmem, hcur⟩
  | pause now =>
      by_cases hc : w.status ≠ WStatus.active
      · simp only [engineStep, pauseWorkout, if_pos hc]
        exact ⟨hlen, hmem, hcur⟩
      · simp only [engineStep, pauseWorkout, if_neg hc]
        exact ⟨hlen, hmem, hcur⟩
  | resume =>
      by_cases hc : w.status ≠ WStatus.paused
      · simp only [engineStep, resumeWorkout, if_pos hc]
        exact ⟨hlen, hmem, hcur⟩
      · simp only [engineStep, resumeWorkout, if_neg hc]
        exact ⟨hlen, hmem, hcur⟩
  | updateWeight i x =>
      rcases he : w.exercises[i]? with _ | ex
      · simp only [engineStep, updateExerciseWeight, he]
        exact ⟨hlen, hmem, hcur⟩
      · simp only [engineStep, updateExerciseWeight, he]
        have hi : i < w.exercises.length := (List.getElem?_eq_some_iff.mp he).1
        refine ⟨by simpa using hlen, ?_, ?_⟩
        · intro a ha
          rcases List.mem_or_eq_of_mem_set ha with ha' | rfl
          · exact hmem a ha'
          · have hx := hmem ex (List.getElem?_mem he)
            exact ⟨hx.1, hx.2.1, hx.2.2⟩
        · intro j hj a haj
          by_cases hij : i = j
          · subst hij
            rw [List.getElem?_set_self hi] at haj
            cases haj
            exact hcur i hj ex he
          · rw [List.getElem?_set_ne hij] at haj
            exact hcur j hj a haj
  | complete sd now =>
      by_cases hact : w.status ≠ WStatus.active
      · simp only [engineStep, completeSet, if_pos hact]
        exact ⟨hlen, hmem, hcur⟩
      · rcases he : w.exercises[w.currentExerciseIndex]? with _ | ex
        · simp only [engineStep, completeSet, if_neg hact, he]
          exact ⟨hlen, hmem, hcur⟩
        · have hi : w.currentExerciseIndex < w.exercises.length :=
            (List.getElem?_eq_some_iff.mp he).1
          have hexInv := hmem ex (List.getElem?_mem he)
          have hlt : ex.completedSets < ex.targetSets := hcur _ le_rfl ex he
          simp only [engineStep, completeSet, if_neg hact, he]
          split_ifs with h1 h2
          · -- exercise done and it was the last one: the stale record is
            -- stamped completed; exercises and index are unchanged
            exact ⟨hlen, hmem, hcur⟩
          · -- exercise done, advance to the next exercise
            dsimp only at h2 ⊢
            simp only [List.length_set] at h2
            refine ⟨?_, ?_, ?_⟩
            · simp only [List.length_set]; omega
            · intro a ha
              rcases List.mem_or_eq_of_mem_set ha with ha' | rfl
              · exact hmem a ha'
              · refine ⟨?_, ?_, hexInv.2.2⟩
                · dsimp only; simp [hexInv.1]
                · dsimp only; omega
            · intro j hj a haj
              dsimp only at hj
              have hne : w.currentExerciseIndex ≠ j := by omega
              rw [List.getElem?_set_ne hne] at haj
              exact hcur j (by omega) a haj
          · -- sets remain on the current exercise
            dsimp only at h1 ⊢
            refine ⟨?_, ?_, ?_⟩
            · simp only [List.length_set]; exact hlen
            · intro a ha
              rcases List.mem_or_eq_of_mem_set ha with ha' | rfl
              · exact hmem a ha'
              · refine ⟨?_, ?_, hexInv.2.2⟩
                · dsimp only; simp [hexInv.1]
                · dsimp only; omega
            · intro j hj a haj
              by_cases hij : w.currentExerciseIndex = j
              · subst hij
                rw [List.getElem?_set_self hi] at haj
                cases haj
                dsimp only
                omega
              · rw [List.getElem?_set_ne hij] at haj
                exact hcur j hj a haj

/-- The invariant holds of every reachable persisted session. -/
theorem sessionInv_reachable {w0 w : Workout} (h0 : SessionInv w0)
    (hw : ReachableFrom w0 w) : SessionInv w := by
  induction hw with
  | refl => exact h0
  | step w' op _ ih => exact sessionInv_step w' op ih

/-- C6: every session reachable from `startWorkout` through any sequence of
engine operations (`completeSet`, `pauseWorkout`, `resumeWorkout`,
`finishWorkout`, `updateExerciseWeight`) keeps `currentExerciseIndex` between
0 and `exercises.length`, and every exercise satisfies
`completedSets ≤ targetSets` and `len(sets) = completedSets` - given that
the routine's exercises have `targetSets ≥ 1`, as the data model requires. -/
theorem C6_session_invariants (r : Routine) (t0 wid : Nat)
    (hr : ∀ e ∈ r.exercises, 1 ≤ e.sets)
    (w : Workout) (hw : ReachableFrom (startWorkout r t0 wid) w) :
    w.currentExerciseIndex ≤ w.exercises.length ∧
    ∀ ex ∈ w.exercises, ex.completedSets ≤ ex.targetSets ∧
      ex.sets.length = ex.completedSets := by
  have h := sessionInv_reachable (sessionInv_start r hr t0 wid) hw
  exact ⟨h.1, fun ex hex => ⟨(h.2.1 ex hex).2.1, (h.2.1 ex hex).1⟩⟩

/-- Witness for C6: the invariant evaluated on the concrete reachable session
`c6state` (one `completeSet` after starting `c6routine`). -/
theorem C6_witness :
    c6state.currentExerciseIndex ≤ c6state.exercises.length :=
  (C6_session_invariants c6routine 0 1 (by decide) c6state
    (.step _ (.complete { reps := none, weight := none } 5) .refl)).1

/-- C9: a 30-second rest timer with notifications enabled.  The base stream is
the unmodified countdown stream (ticks 29 down to 0 then `complete`; the
listeners do not alter it), and the derived stream is `restHalfway` exactly
once, on the tick with `remaining = 15 = floor(30/2)`, then `restCountdown`
on exactly the ticks with `0 < remaining ≤ 10`, then `restComplete` on
`complete`. -/
theorem C9_rest_notifications (an : Bool) (h : an = true) :
    startRestTimerEvents 1 30 an =
      (countdownEvents 1 30 30,
       [.restHalfway 1 15,
        .restCountdown 1 10, .restCountdown 1 9, .restCountdown 1 8,
        .restCountdown 1 7, .restCountdown 1 6, .restCountdown 1 5,
        .restCountdown 1 4, .restCountdown 1 3, .restCountdown 1 2,
        .restCountdown 1 1, .restComplete 1]) ∧
    (startRestTimerEvents 1 30 an).2.count (.restHalfway 1 15) = 1 ∧
    (∀ r : Int, ServiceEvent.restCountdown 1 r ∈ (startRestTimerEvents 1 30 an).2 ↔
      (0 < r ∧ r ≤ 10)) ∧
    (startRestTimerEvents 1 30 an).2.count (.restComplete 1) = 1 := by
  subst h
  refine ⟨by decide, by decide, ?_, by decide⟩
  intro r
  constructor
  · intro hr
    have : r ∈ ([10, 9, 8, 7, 6, 5, 4, 3, 2, 1] : List Int) := by
      simp only [show (startRestTimerEvents 1 30 true).2 =
        [.restHalfway 1 15,
         .restCountdown 1 10, .restCountdown 1 9, .restCountdown 1 8,
         .restCountdown 1 7, .restCountdown 1 6, .restCountdown 1 5,
         .restCountdown 1 4, .restCountdown 1 3, .restCountdown 1 2,
         .restCountdown 1 1, .restComplete 1] from by decide] at hr
      simp at hr
      rcases hr with h | h | h | h | h | h | h | h | h | h <;> simp [h]
    simp at this
    omega
  · intro hr
    have : r = 10 ∨ r = 9 ∨ r = 8 ∨ r = 7 ∨ r = 6 ∨ r = 5 ∨ r = 4 ∨ r = 3 ∨
        r = 2 ∨ r = 1 := by omega
    rw [show (startRestTimerEvents 1 30 true).2 =
      [.restHalfway 1 15,
       .restCountdown 1 10, .restCountdown 1 9, .restCountdown 1 8,
       .restCountdown 1 7, .restCountdown 1 6, .restCountdown 1 5,
       .restCountdown 1 4, .restCountdown 1 3, .restCountdown 1 2,
       .restCountdown 1 1, .restComplete 1] from by decide]
    rcases this with h | h | h | h | h | h | h | h | h | h <;> simp [h]

/-- Witness for C9: the notification stream with the default options
(`autoNotify = true`). -/
theorem C9_witness :
    startRestTimerEvents 1 30 true =
      (countdownEvents 1 30 30,
       [.restHalfway 1 15,
        .restCountdown 1 10, .restCountdown 1 9, .restCountdown 1 8,
        .restCountdown 1 7, .restCountdown 1 6, .restCountdown 1 5,
        .restCountdown 1 4, .restCountdown 1 3, .restCountdown 1 2,
        .restCountdown 1 1, .restComplete 1]) :=
  (C9_rest_notifications true rfl).1

/-! ### Decimal formatting lemmas for the `parseTime`/`formatTime` round trip -/

theorem digitChar_toNat (d : Nat) (h : d < 10) : (Nat.digitChar d).toNat = 48 + d := by
  interval_cases d <;> decide

theorem digitChar_isDigit (d : Nat) (h : d < 10) : (Nat.digitChar d).isDigit = true := by
  interval_cases d <;> decide

theorem natDigitsCore_append (fuel : Nat) : ∀ (n : Nat) (acc : List Char),
    natDigitsCore fuel n acc = natDigitsCore fuel n [] ++ acc := by
  induction fuel with
  | zero => intro n acc; simp [natDigitsCore]
  | succ f ih =>
      intro n acc
      by_cases h : n < 10
      · simp [natDigitsCore, h]
      · simp only [natDigitsCore, if_neg h]
        rw [ih (n / 10) (Nat.digitChar (n % 10) :: acc),
            ih (n / 10) [Nat.digitChar (n % 10)]]
        simp

theorem natDigitsCore_fuel : ∀ (f f' n : Nat) (acc : List Char), 0 < f → 0 < f' →
    n < 10 ^ f → n < 10 ^ f' → natDigitsCore f n acc = natDigitsCore f' n acc := by
  intro f
  induction f with
  | zero => intro f' n acc h0; exact absurd h0 (lt_irrefl 0)
  | succ f ih =>
      intro f' n acc _ h0' hn hn'
      obtain ⟨f'', rfl⟩ : ∃ k, f' = k + 1 := ⟨f' - 1, by omega⟩
      by_cases h : n < 10
      · simp [natDigitsCore, h]
      · simp only [natDigitsCore, if_neg h]
        have hd : n / 10 < 10 ^ f := by
          rw [Nat.div_lt_iff_lt_mul (by norm_num)]
          rw [pow_succ] at hn
          exact hn
        have hd' : n / 10 < 10 ^ f'' := by
          rw [Nat.div_lt_iff_lt_mul (by norm_num)]
          rw [pow_succ] at hn'
          exact hn'
        have hf : 0 < f := by
          rcases Nat.eq_zero_or_pos f with rfl | hf
          · rw [pow_one] at hn; omega
          · exact hf
        have hf' : 0 < f'' := by
          rcases Nat.eq_zero_or_pos f'' with rfl | hf'
          · rw [pow_one] at hn'; omega
          · exact hf'
        exact ih f'' (n / 10) _ hf hf' hd hd'

theorem natDigits_lt (n : Nat) (h : n < 10) : natDigits n = [Nat.digitChar n] := by
  simp [natDigits, natDigitsCore, h]

theorem natDigits_ge (n : Nat) (h : 10 ≤ n) :
    natDigits n = natDigits (n / 10) ++ [Nat.digitChar (n % 10)] := by
  show natDigitsCore (n + 1) n [] = _
  simp only [natDigitsCore, if_neg (by omega : ¬ n < 10)]
  rw [natDigitsCore_append n (n / 10) [Nat.digitChar (n % 10)]]
  congr 1
  apply natDigitsCore_fuel n (n / 10 + 1) (n / 10) []
  · omega
  · omega
  · calc n / 10 ≤ n := Nat.div_le_self n 10
      _ < 10 ^ n := Nat.lt_pow_self (by norm_num) n
  · calc n / 10 < 10 ^ (n / 10) := Nat.lt_pow_self (by norm_num) (n / 10)
      _ ≤ 10 ^ (n / 10 + 1) := Nat.pow_le_pow_right (by norm_num) (Nat.le_succ _)

theorem foldl_natDigits (n : Nat) : ∀ a : Nat,
    (natDigits n).foldl (fun a c => a * 10 + digitVal c) a =
      a * 10 ^ (natDigits n).length + n := by
  induction n using Nat.strong_induction_on with
  | _ n ih =>
      intro a
      by_cases h : n < 10
      · rw [natDigits_lt n h]
        have hd : digitVal (Nat.digitChar n) = n := by
          unfold digitVal
          rw [digitChar_toNat n h]
          omega
        simp [hd]
      · push_neg at h
        rw [natDigits_ge n h]
        rw [List.foldl_append, List.length_append]
        rw [ih (n / 10) (by omega) a]
        have hd : digitVal (Nat.digitChar (n % 10)) = n % 10 := by
          unfold digitVal
          rw [digitChar_toNat (n % 10) (by omega)]
          omega
        simp only [List.foldl_cons, List.foldl_nil, List.length_cons, List.length_nil, hd]
        rw [pow_succ]
        have h2 : (a * 10 ^ (natDigits (n / 10)).length + n / 10) * 10 + n % 10 =
            a * (10 ^ (natDigits (n / 10)).length * 10) + (10 * (n / 10) + n % 10) := by
          ring
        rw [h2, Nat.div_add_mod]

theorem parseDigitsVal_natDigits (n : Nat) : parseDigitsVal (natDigits n) = n := by
  unfold parseDigitsVal
  rw [foldl_natDigits n 0]
  simp

theorem natDigits_all_digits (n : Nat) : ∀ c ∈ natDigits n, c.isDigit = true := by
  induction n using Nat.strong_induction_on with
  | _ n ih =>
      by_cases h : n < 10
      · rw [natDigits_lt n h]
        intro c hc
        rw [List.mem_singleton] at hc
        subst hc
        exact digitChar_isDigit n h
      · push_neg at h
        rw [natDigits_ge n h]
        intro c hc
        rcases List.mem_append.mp hc with hc | hc
        · exact ih (n / 10) (by omega) c hc
        · rw [List.mem_singleton] at hc
          subst hc
          exact digitChar_isDigit (n % 10) (by omega)

theorem natDigits_ne_nil (n : Nat) : natDigits n ≠ [] := by
  by_cases h : n < 10
  · rw [natDigits_lt n h]; simp
  · rw [natDigits_ge n (by omega)]; simp

theorem padStartTwo_digits (l : List Char) (h : ∀ c ∈ l, c.isDigit = true) :
    ∀ c ∈ padStartTwo l, c.isDigit = true := by
  unfold padStartTwo
  split
  · intro c hc
    rcases List.mem_append.mp hc with hc | hc
    · rw [List.eq_of_mem_replicate hc]; decide
    · exact h c hc
  · exact h

theorem padStartTwo_ne_nil (l : List Char) (h : l ≠ []) : padStartTwo l ≠ [] := by
  unfold padStartTwo
  split
  · simp [h]
  · exact h

theorem foldl_replicate_zeros (k : Nat) :
    (List.replicate k '0').foldl (fun a c => a * 10 + digitVal c) 0 = 0 := by
  induction k with
  | zero => rfl
  | succ m ih =>
      rw [List.replicate_succ, List.foldl_cons]
      have h0 : (0 : Nat) * 10 + digitVal '0' = 0 := rfl
      rw [h0]
      exact ih

theorem parseDigitsVal_padStartTwo (l : List Char) :
    parseDigitsVal (padStartTwo l) = parseDigitsVal l := by
  unfold padStartTwo
  split
  · unfold parseDigitsVal
    rw [List.foldl_append, foldl_replicate_zeros]
  · rfl

theorem takeWhile_eq_self_of_all (p : Char → Bool) :
    ∀ l : List Char, (∀ c ∈ l, p c = true) → l.takeWhile p = l := by
  intro l
  induction l with
  | nil => intro; rfl
  | cons c cs ih =>
      intro h
      rw [List.takeWhile_cons, h c (List.mem_cons_self c cs)]
      simp [ih fun x hx => h x (List.mem_cons_of_mem c hx)]

theorem jsParseInt_all_digits (l : List Char) (hne : l ≠ [])
    (h : ∀ c ∈ l, c.isDigit = true) : jsParseInt l = some (parseDigitsVal l) := by
  unfold jsParseInt
  rw [takeWhile_eq_self_of_all Char.isDigit l h]
  rw [if_neg (by simpa [List.isEmpty_iff] using hne)]

theorem colon_not_mem (l : List Char) (h : ∀ c ∈ l, c.isDigit = true) :
    ':' ∉ l :=
  fun hc => absurd (h _ hc) (by decide)

theorem splitOnChar_of_not_mem (sep : Char) : ∀ l : List Char, sep ∉ l →
    splitOnChar sep l = [l] := by
  intro l
  induction l with
  | nil => intro; rfl
  | cons c cs ih =>
      intro h
      have hc : ¬ c = sep := fun hh => h (hh ▸ List.mem_cons_self c cs)
      have h2 : sep ∉ cs := fun hh => h (List.mem_cons_of_mem c hh)
      simp only [splitOnChar, if_neg hc, ih h2]

theorem splitOnChar_append (sep : Char) : ∀ (a rest : List Char), sep ∉ a →
    splitOnChar sep (a ++ sep :: rest) = a :: splitOnChar sep rest := by
  intro a
  induction a with
  | nil =>
      intro rest _
      simp [splitOnChar]
  | cons c a' ih =>
      intro rest h
      have hc : ¬ c = sep := fun hh => h (hh ▸ List.mem_cons_self c a')
      have h2 : sep ∉ a' := fun hh => h (List.mem_cons_of_mem c hh)
      simp only [List.cons_append, List.append_eq, splitOnChar, if_neg hc, ih rest h2]

theorem parseTime_two_components (p1 p2 : List Char)
    (h1 : ∀ c ∈ p1, c.isDigit = true) (h2 : ∀ c ∈ p2, c.isDigit = true)
    (hn1 : p1 ≠ []) (hn2 : p2 ≠ []) :
    parseTime (p1 ++ ':' :: p2) =
      some (parseDigitsVal p1 * 60 + parseDigitsVal p2) := by
  unfold parseTime
  rw [splitOnChar_append ':' p1 p2 (colon_not_mem p1 h1),
      splitOnChar_of_not_mem ':' p2 (colon_not_mem p2 h2)]
  simp only [List.map_cons, List.map_nil]
  rw [jsParseInt_all_digits p1 hn1 h1, jsParseInt_all_digits p2 hn2 h2]

theorem parseTime_three_components (p1 p2 p3 : List Char)
    (h1 : ∀ c ∈ p1, c.isDigit = true) (h2 : ∀ c ∈ p2, c.isDigit = true)
    (h3 : ∀ c ∈ p3, c.isDigit = true)
    (hn1 : p1 ≠ []) (hn2 : p2 ≠ []) (hn3 : p3 ≠ []) :
    parseTime (p1 ++ ':' :: (p2 ++ ':' :: p3)) =
      some (parseDigitsVal p1 * 3600 + parseDigitsVal p2 * 60 + parseDigitsVal p3) := by
  unfold parseTime
  rw [splitOnChar_append ':' p1 _ (colon_not_mem p1 h1),
      splitOnChar_append ':' p2 p3 (colon_not_mem p2 h2),
      splitOnChar_of_not_mem ':' p3 (colon_not_mem p3 h3)]
  simp only [List.map_cons, List.map_nil]
  rw [jsParseInt_all_digits p1 hn1 h1, jsParseInt_all_digits p2 hn2 h2,
      jsParseInt_all_digits p3 hn3 h3]

/-- C8: round trip.  For every non-negative integer `s` that formats without
an hours component (`s < 3600`), `parseTime (formatTime s) = s`; and for
every non-negative integer `s`, `parseTime (formatTime s true) = s`
(`some` modelling a non-`NaN` JS number). -/
theorem C8_round_trip :
    (∀ s : Nat, s < 3600 → parseTime (formatTime s false) = some s) ∧
    (∀ s : Nat, parseTime (formatTime s true) = some s) := by
  have hP : ∀ n : Nat, (∀ c ∈ padStartTwo (natDigits n), c.isDigit = true) ∧
      padStartTwo (natDigits n) ≠ [] ∧
      parseDigitsVal (padStartTwo (natDigits n)) = n := fun n =>
    ⟨padStartTwo_digits _ (natDigits_all_digits n),
     padStartTwo_ne_nil _ (natDigits_ne_nil n),
     by rw [parseDigitsVal_padStartTwo, parseDigitsVal_natDigits]⟩
  constructor
  · intro s hs
    have h0 : s / 3600 = 0 := by omega
    rw [formatTime, if_neg (by simp [h0])]
    rw [parseTime_two_components _ _ (hP _).1 (hP _).1 (hP _).2.1 (hP _).2.1]
    rw [(hP _).2.2, (hP _).2.2]
    congr 1
    omega
  · intro s
    rw [formatTime, if_pos (Or.inl rfl)]
    rw [parseTime_three_components _ _ _ (hP _).1 (hP _).1 (hP _).1
      (hP _).2.1 (hP _).2.1 (hP _).2.1]
    rw [(hP _).2.2, (hP _).2.2, (hP _).2.2]
    congr 1
    omega

/-- Witness for C8: concrete round trips for `59` seconds (`"00:59"`) and
`3661` seconds (`"01:01:01"`). -/
theorem C8_witness :
    parseTime (formatTime 59 false) = some 59 ∧
    parseTime (formatTime 3661 true) = some 3661 :=
  ⟨C8_round_trip.1 59 (by decide), C8_round_trip.2 3661⟩

end FitTrack
